import Mathlib

/-!
# go-clipsync — verification of the chunked-poll network client

Shallow embedding of the clipboard-sync client's core:
* `internal/types.go` — `Item`, `Snapshot`, `QuickKey`;
* `internal/net/client.go` — the `bodyCap` size cap;
* `internal/net/poll.go` — `Send`, `postChunkWithRetry`, the `Poll`
  loop body (discover / fetch / assemble), `state.assemble`, `fetchChunk`.

Go byte slices are `List Nat`; Go `int` values that cross the wire
(chunk totals and indices of the receive side) are `Int`; Go `string`
is `String`.  External library code (JSON encode/decode, sha256) is not
part of the repository and is passed in as function parameters
(`serialize`, `decode`, `digest`); all control flow around those calls is
translated from the source.  The network is an explicit oracle: `outcome`
gives each POST attempt's result, `fetch`/`resps` give each GET's.
-/

namespace ClipSync

/-- One clipboard item (`internal/types.go`, struct `Item`). -/
structure Item where
  Fmt : Nat
  Payload : String
  ByteLen : Int
  FmtName : String
  MimeType : String
deriving DecidableEq, Repr

/-- One clipboard capture (`internal/types.go`, struct `Snapshot`). -/
structure Snapshot where
  Origin : String
  TS : Int
  Items : List Item
  Quick : String
deriving DecidableEq, Repr

/-- The byte stream fed to the `QuickKey` hash: `h.Write([]byte(it.Payload))`
for each item in order, i.e. the concatenation of the payload strings. -/
def payloadConcat (items : List Item) : String :=
  items.foldl (fun acc it => acc ++ it.Payload) ""

/-- `QuickKey` (`internal/types.go`): `"empty"` for an empty item list,
otherwise the digest of the concatenated payloads.  `digest` stands for the
external sha256-then-truncate-to-8-bytes step (`h.Sum(nil)[:8]`); a
streaming hash of successive `Write`s is the hash of their concatenation. -/
def QuickKey (digest : String → String) (items : List Item) : String :=
  if items.length = 0 then "empty" else digest (payloadConcat items)

/-- `bodyCap` (`internal/net/client.go`): 32 MiB overall cap. -/
def bodyCap : Nat := 32 * 1024 * 1024

/-- `chunkSize` (`internal/net/poll.go`): 300 KiB per part. -/
def chunkSize : Nat := 300 * 1024

/-- `maxRetries` (`internal/net/poll.go`). -/
def maxRetries : Nat := 5

/-- The chunking loop of `Send` (`poll.go`):
`for i := 0; i < len(body); i += chunkSize { chunks = append(chunks, body[i:end]) }`. -/
def splitChunks (body : List Nat) : List (List Nat) :=
  if h : body = [] then []
  else body.take chunkSize :: splitChunks (body.drop chunkSize)
termination_by body.length
decreasing_by
  simp only [List.length_drop]
  exact Nat.sub_lt (List.length_pos.mpr h) (by norm_num [chunkSize])

/-- The lengths the chunking loop produces from a body of `n` bytes. -/
def chunkSizes (n : Nat) : List Nat :=
  if n = 0 then [] else min chunkSize n :: chunkSizes (n - chunkSize)
termination_by n
decreasing_by
  rename_i h
  exact Nat.sub_lt (Nat.pos_of_ne_zero h) (by norm_num [chunkSize])

/-- One uploaded part's POST, with the headers `Send` sets on it
(`X-Chunk-Id`, `X-Chunk-Idx`, `X-Chunk-Total`) and the body. -/
structure PostReq where
  cid : String
  idx : Nat
  total : Nat
  data : List Nat
deriving DecidableEq, Repr

/-- The retry loop of `postChunkWithRetry` (`poll.go`):
`for retry := 0; retry <= maxRetries; retry++`.  `fuel` is the number of
loop iterations still allowed (`maxRetries + 1 - retry`), `retry` the Go
loop counter, `lastErr` the error of the previous attempt.  `outcome r`
is attempt `r`'s result: `none` for a 2xx response, `some e` for a
transport error or non-2xx status.  Returns (attempts made, final error). -/
def retryLoop (outcome : Nat → Option String) :
    Nat → Nat → Option String → Nat × Option String
  | 0, retry, lastErr => (retry, lastErr)
  | fuel + 1, retry, _ =>
    match outcome retry with
    | none => (retry + 1, none)
    | some e => retryLoop outcome fuel (retry + 1) (some e)

/-- `postChunkWithRetry` (`poll.go`), abstracted over the per-attempt
network outcome.  The Go loop runs `retry = 0 .. maxR` inclusive. -/
def postChunkWithRetry (outcome : Nat → Option String) (maxR : Nat) :
    Nat × Option String :=
  retryLoop outcome (maxR + 1) 0 none

/-- The upload loop of `Send` (`poll.go`): posts each chunk in order with
`totalHdr := len(chunks)`; the first chunk whose retries are exhausted
aborts the loop with that error.  Returns the POSTed parts in order and
the final result. -/
def sendChunks (outcome : Nat → Nat → Option String) (cid : String)
    (total : Nat) : List (List Nat) → Nat → List PostReq × Option String
  | [], _ => ([], none)
  | part :: rest, idx =>
    match (postChunkWithRetry (outcome idx) maxRetries).2 with
    | none =>
      let r := sendChunks outcome cid total rest (idx + 1)
      (⟨cid, idx, total, part⟩ :: r.1, r.2)
    | some e => ([⟨cid, idx, total, part⟩], some e)

/-- `httpClient.Send` (`poll.go`): stamp the quick key, serialize, enforce
the 32 MiB cap, split into 300 KiB chunks, upload each in order under the
fresh session id `cid`.  `serialize` stands for `mustJSON`; `outcome c r`
is the network result of chunk `c`'s attempt `r`.  Returns the POSTs
issued and `none` for success / `some err` for the returned error. -/
def Send (digest : String → String) (serialize : Snapshot → List Nat)
    (outcome : Nat → Nat → Option String) (cid : String) (snap : Snapshot) :
    List PostReq × Option String :=
  let stamped := { snap with Quick := QuickKey digest snap.Items }
  let body := serialize stamped
  if bodyCap < body.length then ([], some "snapshot >32 MiB, dropped")
  else sendChunks outcome cid (splitChunks body).length (splitChunks body) 0

/-- `discoverResp` (`poll.go`): the decoded discover metadata. -/
structure DiscoverResp where
  cid : String
  total : Int
  haveIdxs : List Int
deriving DecidableEq, Repr

/-- `state` (`poll.go`): the in-progress download.  The Go `map[int][]byte`
is an association list with distinct keys (the loop inserts a key only
after checking it is absent). -/
structure ChunkState where
  cid : String
  total : Int
  parts : List (Int × List Nat)
deriving DecidableEq, Repr

/-- The zero value `state{}` of `poll.go`'s `state`. -/
def emptyState : ChunkState := ⟨"", 0, []⟩

/-- Go map read `s.parts[i]` with the missing-key default `nil`. -/
def partsGet (parts : List (Int × List Nat)) (i : Int) : List Nat :=
  match parts.find? (fun p => p.1 == i) with
  | some p => p.2
  | none => []

/-- Go map membership `_, exists := parts[i]`. -/
def partsHas (parts : List (Int × List Nat)) (i : Int) : Bool :=
  (parts.find? (fun p => p.1 == i)).isSome

/-- The concatenation loop of `state.assemble` (`poll.go`):
`for i := 0; i < s.total; i++ { full = append(full, s.parts[i]...) }`. -/
def assembleBytes (s : ChunkState) : List Nat :=
  ((List.range s.total.toNat).map (fun i => partsGet s.parts (Int.ofNat i))).flatten

/-- `state.assemble` (`poll.go`): nil when `total == 0` or the part count
differs from `total`; otherwise concatenate indices `0..total-1` in order
and JSON-decode (`decode` stands for `json.Unmarshal`); decode failure
yields nil. -/
def assemble (decode : List Nat → Option Snapshot) (s : ChunkState) :
    Option Snapshot :=
  if s.total = 0 ∨ (s.parts.length : Int) ≠ s.total then none
  else decode (assembleBytes s)

/-- The fetch loop of `Poll` (`poll.go`): for each advertised index not yet
held, fetch it; on success store it, on error leave it for the next
iteration. -/
def fetchMissing (fetch : String → Int → Option (List Nat)) (cid : String) :
    List (Int × List Nat) → List Int → List (Int × List Nat)
  | parts, [] => parts
  | parts, idx :: rest =>
    fetchMissing fetch cid
      (if partsHas parts idx then parts
       else
         match fetch cid idx with
         | some data => parts ++ [(idx, data)]
         | none => parts)
      rest

/-- One iteration of the `Poll` loop body after a successful discover
(`poll.go` lines 153-180): reset on a new session id, fetch missing parts,
and when the held-part count reaches a positive total, assemble, emit the
snapshot iff it decoded and its origin differs from the local `id`, and
reset the state.  Returns the next state and the snapshots written to the
output channel this iteration. -/
def pollStep (id : String) (decode : List Nat → Option Snapshot)
    (fetch : String → Int → Option (List Nat))
    (cur : ChunkState) (meta : DiscoverResp) : ChunkState × List Snapshot :=
  let cur1 :=
    if meta.cid ≠ "" ∧ meta.cid ≠ cur.cid then
      ChunkState.mk meta.cid meta.total []
    else cur
  if cur1.cid = "" then (cur1, [])
  else
    let cur2 : ChunkState :=
      { cur1 with parts := fetchMissing fetch cur1.cid cur1.parts meta.haveIdxs }
    if 0 < cur2.total ∧ (cur2.parts.length : Int) = cur2.total then
      match assemble decode cur2 with
      | some snap =>
        if snap.Origin ≠ id then (emptyState, [snap]) else (emptyState, [])
      | none => (emptyState, [])
    else (cur2, [])

/-- The `Poll` loop over a finite schedule of successful-discover
iterations: each step is the decoded metadata together with that
iteration's fetch oracle.  Returns the final state and everything written
to the output channel, in order. -/
def pollRun (id : String) (decode : List Nat → Option Snapshot) :
    List (DiscoverResp × (String → Int → Option (List Nat))) → ChunkState →
    ChunkState × List Snapshot
  | [], cur => (cur, [])
  | (meta, fetch) :: rest, cur =>
    let r := pollStep id decode fetch cur meta
    let r2 := pollRun id decode rest r.1
    (r2.1, r.2 ++ r2.2)

/-- `json.NewDecoder(resp.Body).Decode(&meta)` into `poll.go`'s
`discoverResp`: all three fields (`cid`, `total`, `have`) are unexported
(lower-case), and Go's `encoding/json` never populates unexported struct
fields, so decoding any well-formed JSON body succeeds and leaves every
field at its zero value. -/
def discoverDecodeUnexported (_body : String) : DiscoverResp := ⟨"", 0, []⟩

/-- A run of the real HTTP `Poll` loop from its `var current state` zero
start: each iteration's metadata is what `discover` actually decodes from
the server's response body (`discoverDecodeUnexported`), each iteration
with its own fetch oracle.  These are exactly the reachable executions of
`httpClient.Poll`'s successful-discover iterations. -/
def pollRunHTTP (id : String) (decode : List Nat → Option Snapshot)
    (steps : List (String × (String → Int → Option (List Nat)))) :
    ChunkState × List Snapshot :=
  pollRun id decode
    (steps.map (fun st => (discoverDecodeUnexported st.1, st.2))) emptyState

/-- An HTTP GET response as `fetchChunk` inspects it. -/
structure HttpResp where
  statusCode : Int
  status : String
  body : List Nat

/-- `fetchChunk` (`poll.go`): non-200 is an error; otherwise read the body
through `io.LimitReader(resp.Body, chunkSize+1024)`, i.e. at most
`chunkSize + 1024` bytes of it. -/
def fetchChunk (resp : HttpResp) : Except String (List Nat) :=
  if resp.statusCode ≠ 200 then .error resp.status
  else .ok (resp.body.take (chunkSize + 1024))

/-- The fetch oracle the `Poll` loop runs `fetchChunk` through: `resps`
gives the server's response to each (cid, idx) GET; an error leaves the
part unfetched. -/
def fetchOracle (resps : String → Int → HttpResp) (cid : String) (idx : Int) :
    Option (List Nat) :=
  (fetchChunk (resps cid idx)).toOption

/-! ### Concrete instances used to instantiate the theorems -/

/-- A one-item snapshot used as a concrete `Send` input. -/
def snapOne : Snapshot := ⟨"origin1", 1, [⟨1, "aGk=", 2, "", ""⟩], ""⟩

/-- A serializer producing a 700 KiB body. -/
def serialize700K (_ : Snapshot) : List Nat := List.replicate 716800 0

/-- A serializer producing a body one byte over the 32 MiB cap. -/
def serializeOverCap (_ : Snapshot) : List Nat := List.replicate (bodyCap + 1) 0

/-- A serializer producing a one-byte body. -/
def serializeOne (_ : Snapshot) : List Nat := [1]

/-- A network on which every POST attempt gets a 2xx response. -/
def okOutcome (_ _ : Nat) : Option String := none

/-- A network on which every POST attempt fails. -/
def failOutcome (_ _ : Nat) : Option String := some "boom"

/-- A network on which a chunk's first five POST attempts fail and the
sixth succeeds. -/
def fiveFailOutcome (r : Nat) : Option String :=
  if r < 5 then some "boom" else none

/-- Snapshot delivered in the concrete poll runs: foreign origin, one item. -/
def c6Snap : Snapshot := ⟨"other", 5, [⟨1, "eA==", 1, "", ""⟩], "k"⟩

/-- A decoder that decodes the byte `[7]` to `c6Snap` (the behaviour
`json.Unmarshal` has when `[7]` spells that snapshot's JSON). -/
def c6Decode (b : List Nat) : Option Snapshot :=
  if b == [7] then some c6Snap else none

/-- A fetch oracle serving part 0 of session "abc". -/
def c6Fetch (cid : String) (idx : Int) : Option (List Nat) :=
  if cid == "abc" && idx == 0 then some [7] else none

/-- A one-iteration poll schedule: discover advertises session "abc" with
one part, held. -/
def c6Steps : List (DiscoverResp × (String → Int → Option (List Nat))) :=
  [(⟨"abc", 1, [0]⟩, c6Fetch)]

/-- A snapshot with a foreign origin. -/
def c7Snap : Snapshot := ⟨"peer", 2, [], "q"⟩

/-- A decoder that decodes `[1, 2, 3]` to `c7Snap`. -/
def c7Decode (b : List Nat) : Option Snapshot :=
  if b == [1, 2, 3] then some c7Snap else none

/-- A chunk-set state whose index set is {0, 2}, not {0, 1}, with the part
count (2) matching the declared total (2). -/
def c7State : ChunkState := ⟨"abc", 2, [(0, [1, 2, 3]), (2, [9])]⟩

/-- A complete single-part chunk-set state. -/
def c7wState : ChunkState := ⟨"xyz", 1, [(0, [4])]⟩

/-- A decoder that decodes `[4]` to `c7Snap`. -/
def c7wDecode (b : List Nat) : Option Snapshot :=
  if b == [4] then some c7Snap else none

/-- One item whose payload is "ab". -/
def c9A : List Item := [⟨0, "ab", 2, "", ""⟩]

/-- Two items whose payloads are "a" and "b": a different item sequence
whose payload concatenation is also "ab". -/
def c9B : List Item := [⟨0, "a", 1, "", ""⟩, ⟨0, "b", 1, "", ""⟩]

/-- One item whose payload is "xy". -/
def c9W : List Item := [⟨0, "xy", 2, "", ""⟩]

/-- A 200 response whose body is one byte longer than the fetch read bound. -/
def c10Resp : HttpResp := ⟨200, "200 OK", List.replicate (chunkSize + 1025) 3⟩

/-- A server answering every fetch with `c10Resp`. -/
def c10Resps (_ : String) (_ : Int) : HttpResp := c10Resp

/-! ### Helper lemmas about the chunk codec -/

theorem splitChunks_nil : splitChunks [] = [] := by
  rw [splitChunks]
  simp

theorem splitChunks_cons (body : List Nat) (h : body ≠ []) :
    splitChunks body = body.take chunkSize :: splitChunks (body.drop chunkSize) := by
  rw [splitChunks]
  simp [h]

theorem splitChunks_flatten : ∀ body : List Nat, (splitChunks body).flatten = body
  | body => by
    by_cases h : body = []
    · subst h
      simp [splitChunks_nil]
    · rw [splitChunks_cons body h]
      have ih := splitChunks_flatten (body.drop chunkSize)
      simp [ih]
termination_by body => body.length
decreasing_by
  simp only [List.length_drop]
  exact Nat.sub_lt (List.length_pos.mpr h) (by norm_num [chunkSize])

theorem splitChunks_map_length :
    ∀ body : List Nat, (splitChunks body).map List.length = chunkSizes body.length
  | body => by
    by_cases h : body = []
    · subst h
      rw [splitChunks_nil, chunkSizes]
      simp
    · rw [splitChunks_cons body h, chunkSizes]
      have hlen : body.length ≠ 0 := fun hz => h (List.length_eq_zero.mp hz)
      have ih := splitChunks_map_length (body.drop chunkSize)
      simp [hlen, ih, List.length_take, List.length_drop]
termination_by body => body.length
decreasing_by
  simp only [List.length_drop]
  exact Nat.sub_lt (List.length_pos.mpr h) (by norm_num [chunkSize])

theorem chunkSizes_716800 : chunkSizes 716800 = [307200, 307200, 102400] := by
  rw [chunkSizes]
  norm_num [chunkSize]
  rw [chunkSizes]
  norm_num [chunkSize]
  rw [chunkSizes]
  norm_num [chunkSize]
  rw [chunkSizes]
  norm_num

theorem flatten_range_getD (l : List (List Nat)) :
    ((List.range l.length).map (fun i => l.getD i [])).flatten = l.flatten := by
  induction l with
  | nil => simp
  | cons x xs ih =>
    rw [List.length_cons, List.range_succ_eq_map]
    simp only [List.map_cons, List.getD_cons_zero, List.map_map, Function.comp_def,
      List.getD_cons_succ, List.flatten_cons]
    rw [ih]

/-- C1: for every payload `P` and the 300 KiB part size, the parts the
`Send` chunking loop produces, reassembled by `state.assemble`'s
index-order concatenation with all parts supplied (every index
`0 ≤ i < len(chunks)` mapped to the i-th chunk), byte-exactly reproduce
`P`. -/
theorem split_assemble_roundtrip (cid : String) (P : List Nat)
    (parts : List (Int × List Nat))
    (hall : ∀ i : Nat, i < (splitChunks P).length →
      partsGet parts (Int.ofNat i) = (splitChunks P).getD i []) :
    assembleBytes ⟨cid, ((splitChunks P).length : Int), parts⟩ = P := by
  unfold assembleBytes
  simp only [Int.toNat_ofNat]
  rw [List.map_congr_left (fun i hi => hall i (List.mem_range.mp hi))]
  rw [flatten_range_getD, splitChunks_flatten]

/-- C1 witness: the payload `[1, 2, 3]` splits into the single chunk
`[1, 2, 3]`, and assembling the parts map `{0 ↦ [1, 2, 3]}` returns it. -/
theorem split_assemble_roundtrip_witness :
    assembleBytes ⟨"w", ((splitChunks [1, 2, 3]).length : Int),
      [(0, [1, 2, 3])]⟩ = [1, 2, 3] :=
  split_assemble_roundtrip "w" [1, 2, 3] [(0, [1, 2, 3])] (by
    rw [splitChunks_cons [1, 2, 3] (by simp)]
    rw [List.take_of_length_le (by norm_num [chunkSize])]
    rw [List.drop_eq_nil_of_le (by norm_num [chunkSize])]
    rw [splitChunks_nil]
    decide)

/-- C2: the claim expects an iteration whose discover body is
`{cid:"abc", total:2, have:[0,1]}` to fetch both parts and emit the
assembled snapshot.  The code cannot: `discoverResp`'s fields are all
unexported, so `encoding/json` leaves them at their zero values and every
iteration sees `cid = ""`, fetches nothing and emits nothing — for any
response body, any decoder and any fetch oracle. -/
theorem poll_discover_unexported_yields_nothing (id : String)
    (decode : List Nat → Option Snapshot)
    (fetch : String → Int → Option (List Nat)) (body : String) :
    pollStep id decode fetch emptyState (discoverDecodeUnexported body) =
      (emptyState, []) := by
  simp [pollStep, discoverDecodeUnexported, emptyState]

/-! ### Helper lemmas about the upload loop -/

theorem sendChunks_total (outcome : Nat → Nat → Option String) (cid : String)
    (tot : Nat) :
    ∀ (chunks : List (List Nat)) (k : Nat) (r : PostReq),
      r ∈ (sendChunks outcome cid tot chunks k).1 → r.total = tot := by
  intro chunks
  induction chunks with
  | nil =>
    intro k r hr
    simp [sendChunks] at hr
  | cons c cs ih =>
    intro k r hr
    rw [sendChunks] at hr
    cases h : (postChunkWithRetry (outcome k) maxRetries).2 with
    | none =>
      rw [h] at hr
      simp only [List.mem_cons] at hr
      rcases hr with hr | hr
      · rw [hr]
      · exact ih (k + 1) r hr
    | some e =>
      rw [h] at hr
      simp only [List.mem_singleton] at hr
      rw [hr]

theorem sendChunks_mem_ne_nil (outcome : Nat → Nat → Option String)
    (cid : String) (tot : Nat) (chunks : List (List Nat)) (k : Nat)
    (r : PostReq) (hr : r ∈ (sendChunks outcome cid tot chunks k).1) :
    chunks ≠ [] := by
  intro hc
  subst hc
  simp [sendChunks] at hr

theorem sendChunks_idx (outcome : Nat → Nat → Option String) (cid : String)
    (tot : Nat) :
    ∀ (chunks : List (List Nat)) (k : Nat),
      (sendChunks outcome cid tot chunks k).1.map PostReq.idx =
        List.range' k (sendChunks outcome cid tot chunks k).1.length := by
  intro chunks
  induction chunks with
  | nil =>
    intro k
    simp [sendChunks]
  | cons c cs ih =>
    intro k
    rw [sendChunks]
    cases h : (postChunkWithRetry (outcome k) maxRetries).2 with
    | none =>
      simp only [List.map_cons, List.length_cons, List.range'_succ]
      rw [ih (k + 1)]
    | some e =>
      simp [List.range'_succ]

theorem send_eq_sendChunks (digest : String → String)
    (serialize : Snapshot → List Nat) (outcome : Nat → Nat → Option String)
    (cid : String) (snap : Snapshot) (body : List Nat)
    (hbody : serialize { snap with Quick := QuickKey digest snap.Items } = body)
    (hcap : body.length ≤ bodyCap) :
    Send digest serialize outcome cid snap =
      sendChunks outcome cid (splitChunks body).length (splitChunks body) 0 := by
  simp only [Send]
  rw [hbody, if_neg (Nat.not_lt.mpr hcap)]

/-- C3: for every snapshot `Send` accepts (serialized size within the
cap), every uploaded part's POST carries `X-Chunk-Total` equal to the
same, constant, non-zero chunk count, and the parts go out in strictly
increasing index order (the i-th POST carries index i); in particular a
700 KiB body yields 3 parts of 300, 300 and 100 KiB, each POSTed with
total 3. -/
theorem send_constant_total_ordered (digest : String → String)
    (serialize : Snapshot → List Nat) (outcome : Nat → Nat → Option String)
    (cid : String) (snap : Snapshot) (body : List Nat)
    (hbody : serialize { snap with Quick := QuickKey digest snap.Items } = body)
    (hcap : body.length ≤ bodyCap) :
    (∀ r ∈ (Send digest serialize outcome cid snap).1,
      r.total = (splitChunks body).length ∧ 0 < r.total) ∧
    (Send digest serialize outcome cid snap).1.map PostReq.idx =
      List.range (Send digest serialize outcome cid snap).1.length ∧
    (body.length = 716800 →
      (splitChunks body).map List.length = [307200, 307200, 102400] ∧
      (splitChunks body).length = 3) := by
  rw [send_eq_sendChunks digest serialize outcome cid snap body hbody hcap]
  refine ⟨?_, ?_, ?_⟩
  · intro r hr
    have ht := sendChunks_total outcome cid (splitChunks body).length
      (splitChunks body) 0 r hr
    have hne := sendChunks_mem_ne_nil outcome cid (splitChunks body).length
      (splitChunks body) 0 r hr
    exact ⟨ht, ht ▸ List.length_pos.mpr hne⟩
  · rw [sendChunks_idx, List.range_eq_range']
  · intro hlen
    have hm : (splitChunks body).map List.length = [307200, 307200, 102400] := by
      rw [splitChunks_map_length, hlen, chunkSizes_716800]
    refine ⟨hm, ?_⟩
    have := congrArg List.length hm
    simpa using this

/-- C3 witness: a 700 KiB body (all zero bytes) splits into parts of
300, 300 and 100 KiB, all POSTs carry total 3, and indices go out as
0, 1, 2. -/
theorem send_constant_total_ordered_witness :
    (∀ r ∈ (Send id serialize700K okOutcome "c" snapOne).1,
      r.total = (splitChunks (List.replicate 716800 0)).length ∧ 0 < r.total) ∧
    (Send id serialize700K okOutcome "c" snapOne).1.map PostReq.idx =
      List.range (Send id serialize700K okOutcome "c" snapOne).1.length ∧
    ((List.replicate 716800 (0 : Nat)).length = 716800 →
      (splitChunks (List.replicate 716800 0)).map List.length =
        [307200, 307200, 102400] ∧
      (splitChunks (List.replicate 716800 0)).length = 3) :=
  send_constant_total_ordered id serialize700K okOutcome "c" snapOne
    (List.replicate 716800 0) rfl (by norm_num [bodyCap])

/-! ### Helper lemma about the retry loop -/

theorem retryLoop_all_fail (outcome : Nat → Option String) (e : Nat → String) :
    ∀ (fuel k : Nat) (last : Option String), 0 < fuel →
      (∀ r, k ≤ r → r < k + fuel → outcome r = some (e r)) →
      retryLoop outcome fuel k last = (k + fuel, some (e (k + fuel - 1))) := by
  intro fuel
  induction fuel with
  | zero =>
    intro k last h
    exact absurd h (lt_irrefl 0)
  | succ f ih =>
    intro k last _ hf
    have houtk := hf k le_rfl (by omega)
    have step : retryLoop outcome (f + 1) k last =
        match outcome k with
        | none => (k + 1, none)
        | some e2 => retryLoop outcome f (k + 1) (some e2) := rfl
    rw [step, houtk]
    show retryLoop outcome f (k + 1) (some (e k)) =
      (k + (f + 1), some (e (k + (f + 1) - 1)))
    by_cases hf0 : f = 0
    · subst hf0
      show ((k + 1 : Nat), some (e k)) = (k + (0 + 1), some (e (k + (0 + 1) - 1)))
      simp
    · rw [ih (k + 1) (some (e k)) (Nat.pos_of_ne_zero hf0)
        (fun r h1 h2 => hf r (by omega) (by omega))]
      have h1 : k + 1 + f = k + (f + 1) := by omega
      rw [h1]

/-- C4 counterexample: five consecutive POST failures do NOT exhaust the
retries.  On a network failing attempts 0–4 and succeeding on attempt 5,
`postChunkWithRetry` makes a sixth attempt and returns success, so the
claimed "5 attempts in total" bound is false: the loop
`for retry := 0; retry <= maxRetries` makes `maxRetries + 1 = 6` attempts. -/
theorem five_failures_do_not_exhaust :
    (∀ r, r < 5 → fiveFailOutcome r = some "boom") ∧
    postChunkWithRetry fiveFailOutcome maxRetries = (6, none) := by
  constructor
  · decide
  · rfl

/-- C4 (amended): six consecutive POST failures (the initial attempt plus
five retries) exhaust the retries — 6 attempts in total for that chunk —
and `Send` then returns the last error without attempting any subsequent
chunk: the POST trace holds chunk index 0 only. -/
theorem send_six_attempts_last_error (digest : String → String)
    (serialize : Snapshot → List Nat) (outcome : Nat → Nat → Option String)
    (cid : String) (snap : Snapshot) (body : List Nat) (e : Nat → String)
    (hbody : serialize { snap with Quick := QuickKey digest snap.Items } = body)
    (hcap : body.length ≤ bodyCap) (hne : body ≠ [])
    (hfail : ∀ r, r ≤ maxRetries → outcome 0 r = some (e r)) :
    postChunkWithRetry (outcome 0) maxRetries = (6, some (e 5)) ∧
    (Send digest serialize outcome cid snap).1.map PostReq.idx = [0] ∧
    (Send digest serialize outcome cid snap).2 = some (e 5) := by
  have hpost : postChunkWithRetry (outcome 0) maxRetries = (6, some (e 5)) := by
    unfold postChunkWithRetry
    rw [retryLoop_all_fail (outcome 0) e (maxRetries + 1) 0 none (by omega)
      (fun r h1 h2 => hfail r (by norm_num [maxRetries] at h2 ⊢; omega))]
    norm_num [maxRetries]
  refine ⟨hpost, ?_⟩
  rw [send_eq_sendChunks digest serialize outcome cid snap body hbody hcap]
  rw [splitChunks_cons body hne, sendChunks, hpost]
  exact ⟨rfl, rfl⟩

/-- C4 witness: on a network where every attempt of every chunk fails,
the one-byte body's single chunk is POSTed 6 times, the trace holds index
0 only, and `Send` returns the last error. -/
theorem send_six_attempts_last_error_witness :
    postChunkWithRetry (failOutcome 0) maxRetries = (6, some "boom") ∧
    (Send id serializeOne failOutcome "c" snapOne).1.map PostReq.idx = [0] ∧
    (Send id serializeOne failOutcome "c" snapOne).2 = some "boom" :=
  send_six_attempts_last_error id serializeOne failOutcome "c" snapOne [1]
    (fun _ => "boom") rfl (by norm_num [bodyCap]) (by simp)
    (fun r _ => rfl)

/-- C5: a `Send` whose serialized snapshot exceeds the 32 MiB cap returns
the size-exceeded error with an empty POST trace: no network call is made
for any part. -/
theorem send_size_cap_no_posts (digest : String → String)
    (serialize : Snapshot → List Nat) (outcome : Nat → Nat → Option String)
    (cid : String) (snap : Snapshot)
    (hbig : bodyCap <
      (serialize { snap with Quick := QuickKey digest snap.Items }).length) :
    Send digest serialize outcome cid snap =
      ([], some "snapshot >32 MiB, dropped") := by
  unfold Send
  simp [hbig]

/-- C5 witness: a serializer producing `bodyCap + 1` bytes makes `Send`
fail with the size error and an empty POST trace. -/
theorem send_size_cap_no_posts_witness :
    Send id serializeOverCap okOutcome "c" snapOne =
      ([], some "snapshot >32 MiB, dropped") :=
  send_size_cap_no_posts id serializeOverCap okOutcome "c" snapOne
    (by simp [serializeOverCap])

/-! ### Helper lemma about the Poll loop's emission guard -/

theorem pollStep_emit_origin (id : String) (decode : List Nat → Option Snapshot)
    (fetch : String → Int → Option (List Nat)) (cur : ChunkState)
    (meta : DiscoverResp) (s : Snapshot)
    (hs : s ∈ (pollStep id decode fetch cur meta).2) : s.Origin ≠ id := by
  simp only [pollStep] at hs
  repeat' split at hs
  all_goals simp_all

/-- C6: in every run of the Poll loop, from any starting chunk-set state
and over any schedule of discover results and fetch oracles, a snapshot
whose origin equals the local client id is never written to the output
channel. -/
theorem poll_never_emits_self_origin (id : String)
    (decode : List Nat → Option Snapshot)
    (steps : List (DiscoverResp × (String → Int → Option (List Nat))))
    (cur : ChunkState) (s : Snapshot)
    (hs : s ∈ (pollRun id decode steps cur).2) : s.Origin ≠ id := by
  induction steps generalizing cur with
  | nil => simp [pollRun] at hs
  | cons step rest ih =>
    obtain ⟨meta, fetch⟩ := step
    rw [pollRun] at hs
    simp only [List.mem_append] at hs
    rcases hs with h | h
    · exact pollStep_emit_origin id decode fetch cur meta s h
    · exact ih _ h

/-- C6 witness: on a run that emits the foreign-origin snapshot `c6Snap`,
the theorem yields that its origin differs from the local id "me". -/
theorem poll_never_emits_self_origin_witness : c6Snap.Origin ≠ "me" :=
  poll_never_emits_self_origin "me" c6Decode c6Steps emptyState c6Snap
    (by decide)

/-- C7 counterexample: `assemble` does not require the received index set
to be exactly {0, ..., total-1}.  `c7State` holds indices {0, 2} with a
declared total of 2 (index 1 missing), yet `assemble` decodes and returns
a snapshot, because only the part COUNT is compared to the total and the
missing index 1 contributes empty bytes. -/
theorem assemble_wrong_index_set_decodes :
    assemble c7Decode c7State = some c7Snap ∧
    partsHas c7State.parts 1 = false := by
  decide

/-- C7 (amended): `assemble` returns a decoded snapshot only when the
declared total is non-zero and the NUMBER of received parts equals it,
concatenating indices 0..total-1 in index order (missing indices
contribute nothing); a failing decode (malformed JSON) can only yield
nil. -/
theorem assemble_count_only (decode : List Nat → Option Snapshot)
    (s : ChunkState) (snap : Snapshot)
    (h : assemble decode s = some snap) :
    s.total ≠ 0 ∧ (s.parts.length : Int) = s.total ∧
      decode (assembleBytes s) = some snap := by
  unfold assemble at h
  by_cases hc : s.total = 0 ∨ (s.parts.length : Int) ≠ s.total
  · rw [if_pos hc] at h
    exact absurd h (by simp)
  · rw [if_neg hc] at h
    push_neg at hc
    exact ⟨hc.1, hc.2, h⟩

/-- C7 witness: the complete one-part state `c7wState` assembles, and the
theorem yields the matching count and the decode of its index-order
concatenation. -/
theorem assemble_count_only_witness :
    c7wState.total ≠ 0 ∧ ((c7wState.parts.length : Int) = c7wState.total) ∧
      c7wDecode (assembleBytes c7wState) = some c7Snap :=
  assemble_count_only c7wDecode c7wState c7Snap (by decide)

/-- C8: in every reachable state of the Poll loop, a snapshot with zero
items is never written to the output channel.  The property holds
vacuously: over every run of the real loop — starting from the zero
`state{}` with each iteration's metadata being what `discover` actually
decodes (the zero `discoverResp`, since its fields are unexported) — the
output channel receives nothing at all, for any decoder and any fetch
oracles, so in particular no zero-item snapshot. -/
theorem poll_zero_item_never_forwarded (id : String)
    (decode : List Nat → Option Snapshot)
    (steps : List (String × (String → Int → Option (List Nat)))) :
    (pollRunHTTP id decode steps).2 = [] ∧
    ∀ s ∈ (pollRunHTTP id decode steps).2, s.Items ≠ [] := by
  have hmain : (pollRunHTTP id decode steps).2 = [] := by
    unfold pollRunHTTP
    induction steps with
    | nil => simp [pollRun]
    | cons st rest ih =>
      obtain ⟨body, fetch⟩ := st
      rw [List.map_cons]
      simp only [pollRun]
      have hstep : pollStep id decode fetch emptyState
          (discoverDecodeUnexported body) = (emptyState, []) := by
        simp [pollStep, discoverDecodeUnexported, emptyState]
      rw [hstep]
      simpa using ih
  refine ⟨hmain, fun s hs => ?_⟩
  rw [hmain] at hs
  exact absurd hs (List.not_mem_nil s)

/-- C9 counterexample: `QuickKey` hashes the boundary-less concatenation
of the payloads, so two non-empty item sequences that differ in payload
content — `c9A` with the single payload "ab" and `c9B` with payloads "a"
and "b" — receive the SAME key under every digest; the claimed
distinctness for all content-differing sequences is false. -/
theorem quickkey_payload_collision :
    ¬ (∀ (digest : String → String) (A B : List Item),
        A ≠ [] → B ≠ [] → A.map Item.Payload ≠ B.map Item.Payload →
        QuickKey digest A ≠ QuickKey digest B) := fun h =>
  h id c9A c9B (by decide) (by decide) (by decide) (by decide)

/-- C9 (amended): `QuickKey` is determined by the concatenation of the
payloads: assuming the truncated digest is collision-free (injective, as
the spec assumes), two non-empty item sequences get distinct keys
whenever their payload CONCATENATIONS differ — not whenever the
sequences differ — and the quick key of an empty item sequence is the
sentinel "empty". -/
theorem quickkey_concat_determined (digest : String → String)
    (hinj : Function.Injective digest) (A B : List Item)
    (hA : A ≠ []) (hB : B ≠ [])
    (hne : payloadConcat A ≠ payloadConcat B) :
    QuickKey digest A ≠ QuickKey digest B ∧ QuickKey digest [] = "empty" := by
  refine ⟨?_, rfl⟩
  have hA0 : ¬ A.length = 0 := fun hz => hA (List.length_eq_zero.mp hz)
  have hB0 : ¬ B.length = 0 := fun hz => hB (List.length_eq_zero.mp hz)
  unfold QuickKey
  rw [if_neg hA0, if_neg hB0]
  exact fun hdig => hne (hinj hdig)

/-- C9 witness: with the identity digest (injective) the payloads "ab"
and "xy" concatenate differently, so the keys differ; the empty sequence
keys to "empty". -/
theorem quickkey_concat_determined_witness :
    QuickKey id c9A ≠ QuickKey id c9W ∧ QuickKey id [] = "empty" :=
  quickkey_concat_determined id (fun _ _ hab => hab) c9A c9W
    (by decide) (by decide) (by decide)

/-- C10: for every 200 fetch response, `fetchChunk` returns at most
`chunkSize + 1024 = 300*1024 + 1024` bytes of the body: a longer served
part is silently truncated to that bound — an `ok`, never an error — and
the `Poll` fetch loop stores the truncated bytes in the chunk-set
state. -/
theorem fetch_truncates_oversized_part (resp : HttpResp)
    (h200 : resp.statusCode = 200) :
    fetchChunk resp = .ok (resp.body.take (chunkSize + 1024)) ∧
    (resp.body.take (chunkSize + 1024)).length ≤ chunkSize + 1024 ∧
    (chunkSize + 1024 ≤ resp.body.length →
      (resp.body.take (chunkSize + 1024)).length = chunkSize + 1024) ∧
    (∀ (resps : String → Int → HttpResp) (cid : String) (idx : Int),
      resps cid idx = resp →
      fetchMissing (fetchOracle resps) cid [] [idx] =
        [(idx, resp.body.take (chunkSize + 1024))]) := by
  have hfc : fetchChunk resp = .ok (resp.body.take (chunkSize + 1024)) := by
    simp [fetchChunk, h200]
  refine ⟨hfc, ?_, ?_, ?_⟩
  · simp [List.length_take]
  · intro hlen
    simp [List.length_take]
    omega
  · intro resps cid idx hr
    simp [fetchMissing, partsHas, fetchOracle, hr, hfc, Except.toOption]

/-- C10 witness: a 200 response whose body is `chunkSize + 1025` bytes is
truncated to `chunkSize + 1024` bytes and stored as such. -/
theorem fetch_truncates_oversized_part_witness :
    fetchChunk c10Resp = .ok (c10Resp.body.take (chunkSize + 1024)) ∧
    (c10Resp.body.take (chunkSize + 1024)).length ≤ chunkSize + 1024 ∧
    (chunkSize + 1024 ≤ c10Resp.body.length →
      (c10Resp.body.take (chunkSize + 1024)).length = chunkSize + 1024) ∧
    (∀ (resps : String → Int → HttpResp) (cid : String) (idx : Int),
      resps cid idx = c10Resp →
      fetchMissing (fetchOracle resps) cid [] [idx] =
        [(idx, c10Resp.body.take (chunkSize + 1024))]) :=
  fetch_truncates_oversized_part c10Resp rfl

end ClipSync
